import Mathlib

/-!
Verification development for the base-launchpad crowdfunding dapp.

The definitions below are a shallow embedding of the TypeScript source:
  - `deriveStatus`, `pledge`, `finalize`, `getContribution` embed
    src/services/mockChainAdapter.ts (JS `bigint` amounts become `Int`,
    `Date` timestamps become `Int` milliseconds, and the wall-clock `now`
    that the source reads inside each function is passed explicitly);
  - `pollStep` and `pollNotifications` embed the `pollBalance` callback of
    the campaign-detail page (the `previousBalanceRef` mutable ref becomes
    explicit state threading over a list of sampled balances);
  - `publishCampaign` and `createDraftCampaign` embed
    src/services/supabaseCrowdfundService.ts, with the supabase table as a
    list of rows and the external collaborators' outcomes (address
    derivation, row update) passed as parameters;
  - `parseFloatNat` models the JavaScript `parseFloat` applied to a decimal
    integer string: correctly-rounded (nearest, ties to even) conversion to
    an IEEE-754 binary64 value, expressed on the integer it denotes.

The per-address `campaignStates` map of the mock adapter is modelled by
working with the single `MockCampaignState` stored for one fixed deposit
address; random transaction hashes are abstracted away (the `Except.ok`
result stands for the receipt).
-/

/-- Campaign status enumeration from src/services/crowdfundService.ts. -/
inductive CampaignStatus where
  | LIVE
  | SUCCESSFUL
  | FAILED
  | FINALIZED
deriving DecidableEq, Repr

/-- Error taxonomy: each constructor corresponds to one `throw new Error(...)`
message in the mock chain adapter. -/
inductive ChainError where
  | belowMinPledge
  | deadlinePassed
  | alreadyFinalized
  | notImplemented
deriving DecidableEq, Repr

/-- `deriveStatus` from src/services/mockChainAdapter.ts lines 25-46.
The source reads `now` via `new Date()` inside the function; here it is the
final explicit argument. -/
def deriveStatus (totalRaisedWei goalAmountWei : Int) (deadlineAt : Int)
    (isFinalized : Bool) (now : Int) : CampaignStatus :=
  if isFinalized then
    .FINALIZED
  else if now < deadlineAt then
    .LIVE
  else if goalAmountWei ≤ totalRaisedWei then
    .SUCCESSFUL
  else
    .FAILED

/-- `MockCampaignState` from src/services/mockChainAdapter.ts lines 3-8.
The JS `Map<string, bigint>` of contributions becomes an association list. -/
structure MockCampaignState where
  totalRaisedWei : Int
  backerCount : Nat
  contributions : List (String × Int)
  isFinalized : Bool
deriving DecidableEq, Repr

/-- The fresh state installed by `getOrCreateState` (lines 13-23). -/
def emptyMockState : MockCampaignState :=
  { totalRaisedWei := 0, backerCount := 0, contributions := [], isFinalized := false }

/-- `state.contributions.get(key) ?? BigInt(0)`: lookup defaulting to zero,
as used both by `getUserContribution` and inside `pledge`. -/
def getContribution (contribs : List (String × Int)) (key : String) : Int :=
  match contribs with
  | [] => 0
  | (k, v) :: rest => if k = key then v else getContribution rest key

/-- `state.contributions.set(key, value)`: replace the entry for `key` if
present, append it otherwise. -/
def setContribution (contribs : List (String × Int)) (key : String) (value : Int) :
    List (String × Int) :=
  match contribs with
  | [] => [(key, value)]
  | (k, v) :: rest =>
      if k = key then (key, value) :: rest else (k, v) :: setContribution rest key value

/-- Input record of the adapter's `pledge` (amounts are JS bigints parsed
from strings, the deadline a `Date`). -/
structure PledgeInput where
  amountWei : Int
  minPledgeWei : Int
  deadlineAt : Int
  fromAddress : String
deriving DecidableEq, Repr

/-- `pledge` from src/services/mockChainAdapter.ts lines 92-121, acting on
the state of the targeted deposit address.  Both `throw` statements are
`Except.error`; they occur before any mutation. -/
def pledge (now : Int) (inp : PledgeInput) (st : MockCampaignState) :
    Except ChainError MockCampaignState :=
  if inp.amountWei < inp.minPledgeWei then
    .error .belowMinPledge
  else if inp.deadlineAt ≤ now then
    .error .deadlinePassed
  else
    let fromAddress := inp.fromAddress.toLower
    let previousContribution := getContribution st.contributions fromAddress
    let newBackerCount :=
      if previousContribution = 0 then st.backerCount + 1 else st.backerCount
    .ok { st with
      contributions :=
        setContribution st.contributions fromAddress (previousContribution + inp.amountWei),
      backerCount := newBackerCount,
      totalRaisedWei := st.totalRaisedWei + inp.amountWei }

/-- A pledge attempt as a state transformer: a thrown error leaves the
adapter state unchanged (the source throws before mutating). -/
def applyPledge (st : MockCampaignState) (op : Int × PledgeInput) : MockCampaignState :=
  match pledge op.1 op.2 st with
  | .ok st2 => st2
  | .error _ => st

/-- A sequence of pledge attempts against one deposit address, starting from
the fresh state `getOrCreateState` installs. -/
def runPledges (ops : List (Int × PledgeInput)) : MockCampaignState :=
  ops.foldl applyPledge emptyMockState

/-- `finalize` from src/services/mockChainAdapter.ts lines 128-140 (the
random `txHash` of the receipt is abstracted away). -/
def finalize (st : MockCampaignState) : Except ChainError MockCampaignState :=
  if st.isFinalized then
    .error .alreadyFinalized
  else
    .ok { st with isFinalized := true }

/-- `finalize` as a state transformer: a thrown `AlreadyFinalized` leaves
the state unchanged. -/
def applyFinalize (st : MockCampaignState) : MockCampaignState :=
  match finalize st with
  | .ok st2 => st2
  | .error _ => st

/-- Sum of all ledger entries (`sum(ledger.values())`). -/
def sumContributions (contribs : List (String × Int)) : Int :=
  match contribs with
  | [] => 0
  | (_, v) :: rest => v + sumContributions rest

/-- Number of ledger entries whose value is strictly positive. -/
def positiveEntryCount (contribs : List (String × Int)) : Nat :=
  match contribs with
  | [] => 0
  | (_, v) :: rest => (if 0 < v then 1 else 0) + positiveEntryCount rest

/-! ## Balance polling reconciler (CampaignDetail's `pollBalance`) -/

/-- One tick of `pollBalance`: given the balance held by `previousBalanceRef`
(initially the string "0", hence `0`) and the freshly fetched balance, return
whether the "New pledge received!" toast fires — the source condition is
`newBalance > prevBalance && prevBalance > BigInt(0)` — together with the
value stored back into `previousBalanceRef` (always the fetched balance). -/
def pollStep (prevBalance balance : Nat) : Bool × Nat :=
  (decide (prevBalance < balance) && decide (0 < prevBalance), balance)

/-- Fold `pollStep` over a sequence of sampled balances, collecting for each
poll whether a notification fired. -/
def pollNotifications (prevBalance : Nat) (balances : List Nat) : List Bool :=
  match balances with
  | [] => []
  | b :: rest => (pollStep prevBalance b).1 :: pollNotifications (pollStep prevBalance b).2 rest

/-- A full reconciler run for one deposit address: `previousBalanceRef`
starts at `"0"`. -/
def reconcilerRun (balances : List Nat) : List Bool :=
  pollNotifications 0 balances

/-- Modelled from the spec (for comparison with `reconcilerRun`): the claim's
reading of the reconciler, in which "no prior observation" is a genuine
sentinel (`Option.none`) distinct from an observed balance of zero, and a
notification fires exactly when a prior observation existed and the new
balance strictly exceeds it. -/
def claimNotifications (prior : Option Nat) (balances : List Nat) : List Bool :=
  match balances with
  | [] => []
  | b :: rest =>
      (match prior with
       | none => false
       | some p => decide (p < b)) :: claimNotifications (some b) rest

/-- The claim's reconciler run: no prior observation before the first sample. -/
def reconcilerClaimRun (balances : List Nat) : List Bool :=
  claimNotifications none balances

/-! ## Supabase crowdfund service (campaign rows) -/

/-- Service-level error taxonomy: `notAuthenticated` is the thrown
`"Not authenticated"`, `rowNotFound` a failing `.single()` (zero rows),
`insertFailed` a supabase insert error, `invalidInput` the spec's
`InvalidInput` (never produced by the embedded code). -/
inductive ServiceError where
  | notAuthenticated
  | rowNotFound
  | insertFailed
  | invalidInput
deriving DecidableEq, Repr

/-- The placeholder deposit address inserted at draft creation
(src/services/supabaseCrowdfundService.ts line 268). -/
def placeholderAddress : String :=
  "0x0000000000000000000000000000000000000000"

/-- The fields of a `campaigns` row the verified operations touch. -/
structure CampaignRow where
  id : String
  campaignIndex : Nat
  campaignDepositAddress : String
  goalAmountWei : Nat
  minPledgeWei : Nat
  isPublished : Bool
deriving DecidableEq, Repr

/-- Lookup of the row matching `.eq("id", i)` (ids are unique). -/
def findRow (db : List CampaignRow) (i : String) : Option CampaignRow :=
  match db with
  | [] => none
  | c :: rest => if c.id = i then some c else findRow rest i

/-- `publishCampaign` from src/services/supabaseCrowdfundService.ts lines
338-349: update `is_published := true` on the row matching the id and return
the updated row; `.single()` errors when no row matched.  The source performs
no check on the deposit address. -/
def publishCampaign (db : List CampaignRow) (i : String) :
    Except ServiceError (List CampaignRow × CampaignRow) :=
  let updated := db.map fun c => if c.id = i then { c with isPublished := true } else c
  match findRow updated i with
  | some c => .ok (updated, c)
  | none => .error .rowNotFound

/-! ## `parseFloat` on decimal integer strings -/

/-- The unit in the last place of the IEEE-754 binary64 value nearest `n`:
`1` while `n` fits in the 53-bit significand, doubling with each extra bit. -/
def floatULP (n : Nat) : Nat :=
  if h : n < 2 ^ 53 then 1 else 2 * floatULP (n / 2)
termination_by n
decreasing_by
  omega

/-- Round `n` to a multiple of `ulp` (nearest, ties to even multiple). -/
def roundToULP (n ulp : Nat) : Nat :=
  let q := n / ulp
  let r := n % ulp
  let rounded :=
    if ulp < 2 * r then q + 1
    else if 2 * r < ulp then q
    else if q % 2 = 0 then q else q + 1
  rounded * ulp

/-- JavaScript `parseFloat` applied to the decimal string of the natural
number `n`: correctly-rounded conversion to binary64 (round to nearest, ties
to even), expressed as the natural number the resulting double denotes.
Exact below `2 ^ 53`; inputs here are far below the overflow threshold. -/
def parseFloatNat (n : Nat) : Nat :=
  roundToULP n (floatULP n)

/-- The fields of `CampaignDraftInput` that reach the verified persistence
path (`goalAmountWei` and `minPledgeWei` arrive as decimal integer strings;
they are carried here as the natural numbers those strings denote). -/
structure DraftInput where
  goalAmountWei : Nat
  minPledgeWei : Option Nat
deriving DecidableEq, Repr

/-- `createDraftCampaign` from src/services/supabaseCrowdfundService.ts lines
259-311.  External outcomes are passed in: `sessionPresent` (the auth
session), `insertOk` (the campaign insert; `newId` and `newIndex` are the
row's generated id and `campaign_index`), `derivedAddress` (the
`derive-campaign-wallet` edge function: `none` is `walletError`), and
`updateOk` (the deposit-address update).  A derivation or update failure is
logged and swallowed: the already-inserted row is returned, still holding the
placeholder address.  Amount strings go through `parseFloat`
(`parseFloatNat`); `min_pledge_wei` defaults to `1000000000000000`. -/
def createDraftCampaign (db : List CampaignRow) (sessionPresent : Bool)
    (insertOk : Bool) (newId : String) (newIndex : Nat) (input : DraftInput)
    (derivedAddress : Option String) (updateOk : Bool) :
    Except ServiceError (List CampaignRow × CampaignRow) :=
  if !sessionPresent then
    .error .notAuthenticated
  else if !insertOk then
    .error .insertFailed
  else
    let row : CampaignRow :=
      { id := newId
        campaignIndex := newIndex
        campaignDepositAddress := placeholderAddress
        goalAmountWei := parseFloatNat input.goalAmountWei
        minPledgeWei := parseFloatNat (input.minPledgeWei.getD 1000000000000000)
        isPublished := false }
    let db1 := row :: db
    match derivedAddress with
    | none => .ok (db1, row)
    | some addr =>
        if updateOk then
          let row2 := { row with campaignDepositAddress := addr }
          .ok (db1.map fun c => if c.id = newId then row2 else c, row2)
        else
          .ok (db1, row)

/-! ## Concrete data used in witnesses and counterexamples -/

/-- A contributor wallet address (already lowercase). -/
def addrA : String := "a"

/-- A campaign row id. -/
def cidOne : String := "c1"

/-- A draft campaign whose deposit address is still the placeholder (the
state `createDraftCampaign` leaves behind when address derivation fails). -/
def draftWithPlaceholder : CampaignRow :=
  { id := cidOne
    campaignIndex := 1
    campaignDepositAddress := placeholderAddress
    goalAmountWei := 1000000
    minPledgeWei := 1000
    isPublished := false }

/-- A pledge attempt rejected for being below the minimum (used as concrete
input in witnesses). -/
def pledgeBelowMin : PledgeInput :=
  { amountWei := 0, minPledgeWei := 1, deadlineAt := 10, fromAddress := addrA }

/-- An accepted pledge of 5 units (used as concrete input in witnesses). -/
def pledgeFive : PledgeInput :=
  { amountWei := 5, minPledgeWei := 1, deadlineAt := 10, fromAddress := addrA }

/-- An accepted pledge of 0 units against a zero minimum (the input breaking
the backer-count half of the ledger invariant). -/
def pledgeZero : PledgeInput :=
  { amountWei := 0, minPledgeWei := 0, deadlineAt := 1, fromAddress := addrA }

/-- The ledger well-formedness the mock adapter maintains for states built
from positive pledges: running total equals the ledger sum, backer count
equals the number of positive entries, and every entry is positive. -/
def LedgerWF (st : MockCampaignState) : Prop :=
  st.totalRaisedWei = sumContributions st.contributions ∧
  st.backerCount = positiveEntryCount st.contributions ∧
  ∀ p ∈ st.contributions, 0 < p.2

/-! ## Theorems -/

/-- C3: whenever the finalized flag is set, the derived status is FINALIZED,
regardless of raised amount, goal, deadline or current time. -/
theorem finalized_flag_dominates (raised goal deadline now : Int) :
    deriveStatus raised goal deadline true now = .FINALIZED := rfl

/-- C4 counterexample: at a concrete input with `now >= deadline` and
`raised >= goal` but the finalized flag set, the derived status is FINALIZED,
not SUCCESSFUL — the claim as stated (quantifying over every campaign,
finalized ones included) is false. -/
theorem deadline_met_goal_met_not_successful_when_finalized :
    (10 : Int) ≤ 10 ∧ (5 : Int) ≤ 5 ∧ deriveStatus 5 5 10 true 10 ≠ .SUCCESSFUL := by
  decide

/-- C4 (amended with the finalized flag unset): past the deadline a
non-finalized campaign derives SUCCESSFUL when `raised >= goal` (boundary
`raised = goal` included) and FAILED when `raised < goal`. -/
theorem deadline_status_unfinalized (raised goal deadline now : Int)
    (h : deadline ≤ now) :
    (goal ≤ raised → deriveStatus raised goal deadline false now = .SUCCESSFUL) ∧
    (raised < goal → deriveStatus raised goal deadline false now = .FAILED) := by
  have hnl : ¬ now < deadline := not_lt.mpr h
  constructor
  · intro h2
    simp [deriveStatus, hnl, h2]
  · intro h2
    simp [deriveStatus, hnl, not_le.mpr h2]

/-- Witness for the amended C4, at the boundary `raised = goal`. -/
theorem deadline_status_unfinalized_witness :
    (10 : Int) ≤ 10 ∧ deriveStatus 5 5 10 false 10 = .SUCCESSFUL ∧
      deriveStatus 4 5 10 false 10 = .FAILED :=
  ⟨by decide, (deadline_status_unfinalized 5 5 10 10 (by decide)).1 (by decide),
    (deadline_status_unfinalized 4 5 10 10 (by decide)).2 (by decide)⟩

/-- C5 counterexample: a campaign whose finalized flag is set derives
FINALIZED even while `now < deadline` — the claim as stated (every campaign
with `now < deadline` is LIVE) is false. -/
theorem before_deadline_not_live_when_finalized :
    (0 : Int) < 1 ∧ deriveStatus 0 0 1 true 0 ≠ .LIVE := by
  decide

/-- C5 (amended with the finalized flag unset): before the deadline a
non-finalized campaign derives LIVE. -/
theorem live_before_deadline_unfinalized (raised goal deadline now : Int)
    (h : now < deadline) :
    deriveStatus raised goal deadline false now = .LIVE := by
  simp [deriveStatus, h]

/-- Witness for the amended C5. -/
theorem live_before_deadline_unfinalized_witness :
    (0 : Int) < 1 ∧ deriveStatus 0 0 1 false 0 = .LIVE :=
  ⟨by decide, live_before_deadline_unfinalized 0 0 1 0 (by decide)⟩

/-- C7: on a state whose finalized flag is unset, the first `finalize`
succeeds (setting the flag), the second fails with AlreadyFinalized, and the
state after both calls equals the state after the first call alone. -/
theorem finalize_once_then_already_finalized (st : MockCampaignState)
    (h : st.isFinalized = false) :
    finalize st = .ok (applyFinalize st) ∧
    (applyFinalize st).isFinalized = true ∧
    finalize (applyFinalize st) = .error .alreadyFinalized ∧
    applyFinalize (applyFinalize st) = applyFinalize st := by
  simp [finalize, applyFinalize, h]

/-- Witness for C7 on the fresh adapter state. -/
theorem finalize_once_then_already_finalized_witness :
    finalize emptyMockState = .ok (applyFinalize emptyMockState) ∧
    (applyFinalize emptyMockState).isFinalized = true ∧
    finalize (applyFinalize emptyMockState) = .error .alreadyFinalized ∧
    applyFinalize (applyFinalize emptyMockState) = applyFinalize emptyMockState :=
  finalize_once_then_already_finalized emptyMockState rfl

/-- C2 counterexample: for the balance sequence `[0, 100]` the second poll
has a prior observation (the recorded balance `0`) and the new balance `100`
strictly exceeds it, so the claim mandates a notification there — but the
code's sentinel check `prevBalance > 0` suppresses it: the code emits no
notification at all, while the claim's reading emits one at the second
poll. -/
theorem reconciler_zero_prior_mismatch :
    reconcilerRun [0, 100] = [false, false] ∧
    reconcilerClaimRun [0, 100] = [false, true] := by
  decide

/-- C2 (amended: the sentinel for "no prior observation" is the balance 0,
so a notification fires exactly at polls where the previously recorded
balance is strictly positive and the new balance strictly exceeds it; in
particular the first poll never notifies, and neither does any poll whose
prior observation was zero): notification characterization plus the claimed
example sequence `[100, 100, 250, 250, 400]`, which notifies exactly at the
third and fifth samples. -/
theorem reconciler_notification_characterization :
    (∀ (prev : Nat) (balances : List Nat),
      pollNotifications prev balances =
        (List.zip (prev :: balances) balances).map
          (fun pb => decide (0 < pb.1 ∧ pb.1 < pb.2))) ∧
    reconcilerRun [100, 100, 250, 250, 400] = [false, false, true, false, true] := by
  constructor
  · intro prev balances
    induction balances generalizing prev with
    | nil => rfl
    | cons b rest ih =>
        simp [pollNotifications, pollStep, ih, Bool.decide_and, Bool.and_comm]
  · decide

/-- After the publish update, the row matching the id is found published. -/
theorem findRow_publish_update (db : List CampaignRow) (i : String)
    (h : ∃ c ∈ db, c.id = i) :
    ∃ c2, findRow (db.map fun c => if c.id = i then { c with isPublished := true } else c) i
        = some c2 ∧ c2.id = i ∧ c2.isPublished = true := by
  induction db with
  | nil => simp at h
  | cons c rest ih =>
      by_cases hc : c.id = i
      · exact ⟨{ c with isPublished := true }, by simp [findRow, hc], by simp [hc], rfl⟩
      · obtain ⟨c3, hc3, hid⟩ := h
        rcases List.mem_cons.mp hc3 with rfl | hmem
        · exact absurd hid hc
        · obtain ⟨c2, hfind, hid2, hpub⟩ := ih ⟨c3, hmem, hid⟩
          exact ⟨c2, by simp [findRow, hc, hfind], hid2, hpub⟩

/-- C1 counterexample: publishing a campaign whose deposit address is still
the placeholder succeeds and marks it published — the code raises no
InvalidInput and performs no address check, contradicting the claim. -/
theorem publish_placeholder_succeeds :
    draftWithPlaceholder.campaignDepositAddress = placeholderAddress ∧
    draftWithPlaceholder.isPublished = false ∧
    publishCampaign [draftWithPlaceholder] cidOne =
      .ok ([{ draftWithPlaceholder with isPublished := true }],
        { draftWithPlaceholder with isPublished := true }) :=
  ⟨rfl, rfl, rfl⟩

/-- C1 (amended: `publishCampaign` performs no deposit-address check — for
every campaign row that exists, publishing succeeds and sets the published
flag, whether or not the deposit address is still the placeholder; no
InvalidInput error is produced). -/
theorem publish_sets_published_without_address_check (db : List CampaignRow)
    (i : String) (h : ∃ c ∈ db, c.id = i) :
    ∃ updated c2, publishCampaign db i = .ok (updated, c2) ∧
      c2.id = i ∧ c2.isPublished = true := by
  obtain ⟨c2, hfind, hid2, hpub⟩ := findRow_publish_update db i h
  refine ⟨db.map fun c => if c.id = i then { c with isPublished := true } else c,
    c2, ?_, hid2, hpub⟩
  simp only [publishCampaign]
  rw [hfind]

/-- Witness for the amended C1, on the placeholder-address draft. -/
theorem publish_sets_published_without_address_check_witness :
    ∃ updated c2, publishCampaign [draftWithPlaceholder] cidOne = .ok (updated, c2) ∧
      c2.id = cidOne ∧ c2.isPublished = true :=
  publish_sets_published_without_address_check [draftWithPlaceholder] cidOne
    ⟨draftWithPlaceholder, by simp, rfl⟩

/-- C9: when the session is present and the campaign insert succeeds but the
address-derivation call fails (`derivedAddress = none`), `createDraftCampaign`
returns `Except.ok` (it does not raise), the inserted row stays in the table
(no rollback), and the returned campaign still carries the placeholder
deposit address. -/
theorem create_draft_swallows_derivation_failure (db : List CampaignRow)
    (newId : String) (newIndex : Nat) (input : DraftInput) (updateOk : Bool) :
    ∃ row, createDraftCampaign db true true newId newIndex input none updateOk
        = .ok (row :: db, row) ∧
      row.campaignDepositAddress = placeholderAddress ∧
      row.isPublished = false :=
  ⟨_, rfl, rfl, rfl⟩

/-- The unit in the last place of the double nearest `2 ^ 53 + 1` is `2`. -/
theorem floatULP_two_pow_53_succ : floatULP 9007199254740993 = 2 := by
  rw [floatULP]
  norm_num
  rw [floatULP]
  norm_num

/-- `parseFloat` rounds `2 ^ 53 + 1` down to `2 ^ 53` (tie, even mantissa). -/
theorem parseFloatNat_two_pow_53_succ :
    parseFloatNat 9007199254740993 = 9007199254740992 := by
  rw [parseFloatNat, floatULP_two_pow_53_succ]
  decide

/-- C8 (code bug): creating a draft with goal string "9007199254740993"
(`2 ^ 53 + 1`, within the `numeric(78,0)` column's arbitrary-precision
range) stores the goal `9007199254740992` — the `parseFloat` conversion in
`createDraftCampaign` rounds to the nearest binary64, losing precision, so
the persisted goal differs from the supplied value. -/
theorem create_draft_goal_precision_loss :
    ∃ row, createDraftCampaign [] true true cidOne 1
        { goalAmountWei := 9007199254740993, minPledgeWei := none } none true
        = .ok ([row], row) ∧
      row.goalAmountWei = 9007199254740992 ∧
      row.goalAmountWei ≠ 9007199254740993 := by
  refine ⟨_, rfl, ?_, ?_⟩
  · exact parseFloatNat_two_pow_53_succ
  · rw [parseFloatNat_two_pow_53_succ]
    decide

/-- Reading back the entry just written. -/
theorem getContribution_setContribution (l : List (String × Int)) (k : String) (v : Int) :
    getContribution (setContribution l k v) k = v := by
  induction l with
  | nil => simp [setContribution, getContribution]
  | cons p rest ih =>
      obtain ⟨k2, v2⟩ := p
      by_cases hk : k2 = k
      · simp [setContribution, getContribution, hk]
      · simp [setContribution, getContribution, hk, ih]

/-- Writing an entry changes the ledger sum by the difference between the new
value and the entry previously read for that key. -/
theorem sumContributions_setContribution (l : List (String × Int)) (k : String) (v : Int) :
    sumContributions (setContribution l k v) =
      sumContributions l - getContribution l k + v := by
  induction l with
  | nil => simp [setContribution, sumContributions, getContribution]
  | cons p rest ih =>
      obtain ⟨k2, v2⟩ := p
      by_cases hk : k2 = k
      · simp [setContribution, sumContributions, getContribution, hk]
        omega
      · simp [setContribution, sumContributions, getContribution, hk, ih]
        omega

/-- On an all-positive ledger a lookup is non-negative. -/
theorem getContribution_nonneg (l : List (String × Int)) (k : String)
    (hpos : ∀ p ∈ l, 0 < p.2) : 0 ≤ getContribution l k := by
  induction l with
  | nil => simp [getContribution]
  | cons p rest ih =>
      obtain ⟨k2, v2⟩ := p
      by_cases hk : k2 = k
      · simp only [getContribution, hk, if_pos]
        exact (hpos (k2, v2) (by simp)).le
      · simp only [getContribution, hk, if_neg, not_false_iff]
        exact ih fun p hp => hpos p (by simp [hp])

/-- On an all-positive ledger, writing a positive value adds a positive entry
exactly when the key was previously absent (read as zero). -/
theorem positiveEntryCount_setContribution (l : List (String × Int)) (k : String)
    (v : Int) (hpos : ∀ p ∈ l, 0 < p.2) (hv : 0 < v) :
    positiveEntryCount (setContribution l k v) =
      if getContribution l k = 0 then positiveEntryCount l + 1
      else positiveEntryCount l := by
  induction l with
  | nil => simp [setContribution, positiveEntryCount, getContribution, hv]
  | cons p rest ih =>
      obtain ⟨k2, v2⟩ := p
      have hv2 : 0 < v2 := hpos (k2, v2) (by simp)
      have hrest : ∀ p ∈ rest, 0 < p.2 := fun p hp => hpos p (by simp [hp])
      by_cases hk : k2 = k
      · simp [setContribution, positiveEntryCount, getContribution, hk, hv, hv2, hv2.ne']
      · by_cases hg : getContribution rest k = 0
        · simp [setContribution, positiveEntryCount, getContribution, hk, hv2,
            ih hrest, hg]
          omega
        · simp [setContribution, positiveEntryCount, getContribution, hk, hv2,
            ih hrest, hg]

/-- Writing a positive value on an all-positive ledger keeps it all-positive. -/
theorem setContribution_pos (l : List (String × Int)) (k : String) (v : Int)
    (hpos : ∀ p ∈ l, 0 < p.2) (hv : 0 < v) :
    ∀ p ∈ setContribution l k v, 0 < p.2 := by
  induction l with
  | nil =>
      intro p hp
      simp [setContribution] at hp
      rw [hp]
      exact hv
  | cons q rest ih =>
      obtain ⟨k2, v2⟩ := q
      intro p hp
      by_cases hk : k2 = k
      · simp [setContribution, hk] at hp
        rcases hp with hp | hp
        · rw [hp]; exact hv
        · exact hpos p (by simp [hp])
      · simp [setContribution, hk] at hp
        rcases hp with hp | hp
        · exact hpos p (by simp [hp])
        · exact ih (fun r hr => hpos r (by simp [hr])) p hp

/-- The accepted-pledge branch of `pledge`, spelled out. -/
theorem pledge_ok (now : Int) (inp : PledgeInput) (st : MockCampaignState)
    (h1 : ¬ inp.amountWei < inp.minPledgeWei) (h2 : ¬ inp.deadlineAt ≤ now) :
    pledge now inp st = .ok { st with
      contributions := setContribution st.contributions inp.fromAddress.toLower
        (getContribution st.contributions inp.fromAddress.toLower + inp.amountWei),
      backerCount := if getContribution st.contributions inp.fromAddress.toLower = 0
        then st.backerCount + 1 else st.backerCount,
      totalRaisedWei := st.totalRaisedWei + inp.amountWei } := by
  simp [pledge, h1, h2]

/-- One pledge attempt with positive amount preserves ledger well-formedness
(a rejected attempt leaves the state untouched). -/
theorem applyPledge_preserves_wf (st : MockCampaignState) (op : Int × PledgeInput)
    (ha : 0 < op.2.amountWei) (hwf : LedgerWF st) : LedgerWF (applyPledge st op) := by
  by_cases h1 : op.2.amountWei < op.2.minPledgeWei
  · have he : applyPledge st op = st := by simp [applyPledge, pledge, h1]
    rwa [he]
  · by_cases h2 : op.2.deadlineAt ≤ op.1
    · have he : applyPledge st op = st := by simp [applyPledge, pledge, h1, h2]
      rwa [he]
    · obtain ⟨hsum, hcount, hpos⟩ := hwf
      have hok := pledge_ok op.1 op.2 st h1 h2
      have he : applyPledge st op = { st with
          contributions := setContribution st.contributions op.2.fromAddress.toLower
            (getContribution st.contributions op.2.fromAddress.toLower + op.2.amountWei),
          backerCount := if getContribution st.contributions op.2.fromAddress.toLower = 0
            then st.backerCount + 1 else st.backerCount,
          totalRaisedWei := st.totalRaisedWei + op.2.amountWei } := by
        simp [applyPledge, hok]
      rw [he]
      have hprev : 0 ≤ getContribution st.contributions op.2.fromAddress.toLower :=
        getContribution_nonneg st.contributions op.2.fromAddress.toLower hpos
      have hposval : 0 < getContribution st.contributions op.2.fromAddress.toLower
          + op.2.amountWei := by omega
      refine ⟨?_, ?_, ?_⟩
      · show st.totalRaisedWei + op.2.amountWei = _
        rw [sumContributions_setContribution, hsum]
        omega
      · show (if getContribution st.contributions op.2.fromAddress.toLower = 0
            then st.backerCount + 1 else st.backerCount) = _
        rw [positiveEntryCount_setContribution st.contributions
          op.2.fromAddress.toLower _ hpos hposval, hcount]
      · exact setContribution_pos st.contributions op.2.fromAddress.toLower _ hpos hposval

/-- C6 counterexample: one accepted pledge of amount 0 (the minimum pledge
supplied to the adapter being 0, and the deadline not passed) increments the
backer count while writing a zero-valued ledger entry, so afterwards the
backer count (1) differs from the number of ledger entries with positive
value (0) — the invariant as claimed fails after this accepted sequence. -/
theorem ledger_invariant_fails_for_zero_pledge :
    ¬ ((runPledges [(0, pledgeZero)]).totalRaisedWei =
        sumContributions (runPledges [(0, pledgeZero)]).contributions ∧
      (runPledges [(0, pledgeZero)]).backerCount =
        positiveEntryCount (runPledges [(0, pledgeZero)]).contributions) := by
  decide

/-- C6 (amended: restricted to pledge sequences whose amounts are strictly
positive — a zero-amount accepted pledge breaks the backer-count half):
after any sequence of pledge attempts with positive amounts (rejected
attempts leave the state unchanged), the total raised equals the sum of all
ledger entries and the backer count equals the number of entries with value
greater than zero. -/
theorem ledger_invariant_positive_pledges (ops : List (Int × PledgeInput))
    (h : ∀ op ∈ ops, 0 < op.2.amountWei) :
    (runPledges ops).totalRaisedWei = sumContributions (runPledges ops).contributions ∧
    (runPledges ops).backerCount = positiveEntryCount (runPledges ops).contributions := by
  have key : ∀ (l : List (Int × PledgeInput)) (st : MockCampaignState),
      (∀ op ∈ l, 0 < op.2.amountWei) → LedgerWF st → LedgerWF (l.foldl applyPledge st) := by
    intro l
    induction l with
    | nil => exact fun st _ hwf => hwf
    | cons op rest ih =>
        intro st hl hwf
        exact ih _ (fun o ho => hl o (by simp [ho]))
          (applyPledge_preserves_wf st op (hl op (by simp)) hwf)
  have h2 := key ops emptyMockState h ⟨rfl, rfl, by simp [emptyMockState]⟩
  exact ⟨h2.1, h2.2.1⟩

/-- Witness for the amended C6: a single accepted pledge of 5. -/
theorem ledger_invariant_positive_pledges_witness :
    (runPledges [(0, pledgeFive)]).totalRaisedWei =
      sumContributions (runPledges [(0, pledgeFive)]).contributions ∧
    (runPledges [(0, pledgeFive)]).backerCount =
      positiveEntryCount (runPledges [(0, pledgeFive)]).contributions :=
  ledger_invariant_positive_pledges [(0, pledgeFive)] (by decide)

/-- C10: a pledge below the minimum, or at/after the deadline, throws and
leaves the state unchanged; an accepted pledge increases the contributor's
canonicalized ledger entry and the total raised by exactly the pledged
amount. -/
theorem pledge_checks_and_deltas (now : Int) (inp : PledgeInput)
    (st : MockCampaignState) :
    (inp.amountWei < inp.minPledgeWei ∨ inp.deadlineAt ≤ now →
      (∃ e, pledge now inp st = .error e) ∧ applyPledge st (now, inp) = st) ∧
    (inp.minPledgeWei ≤ inp.amountWei → now < inp.deadlineAt →
      ∃ st2, pledge now inp st = .ok st2 ∧
        getContribution st2.contributions inp.fromAddress.toLower =
          getContribution st.contributions inp.fromAddress.toLower + inp.amountWei ∧
        st2.totalRaisedWei = st.totalRaisedWei + inp.amountWei) := by
  constructor
  · intro h
    by_cases h1 : inp.amountWei < inp.minPledgeWei
    · have hp : pledge now inp st = .error .belowMinPledge := by simp [pledge, h1]
      exact ⟨⟨_, hp⟩, by simp [applyPledge, hp]⟩
    · have h2 : inp.deadlineAt ≤ now := h.resolve_left h1
      have hp : pledge now inp st = .error .deadlinePassed := by simp [pledge, h1, h2]
      exact ⟨⟨_, hp⟩, by simp [applyPledge, hp]⟩
  · intro h1 h2
    have hok := pledge_ok now inp st (not_lt.mpr h1) (not_le.mpr h2)
    exact ⟨_, hok, getContribution_setContribution _ _ _, rfl⟩

/-- Witness for C10: a rejected below-minimum pledge and an accepted pledge
of 5, both against the fresh state. -/
theorem pledge_checks_and_deltas_witness :
    ((∃ e, pledge 0 pledgeBelowMin emptyMockState = .error e) ∧
      applyPledge emptyMockState (0, pledgeBelowMin) = emptyMockState) ∧
    (∃ st2, pledge 0 pledgeFive emptyMockState = .ok st2 ∧
      getContribution st2.contributions pledgeFive.fromAddress.toLower =
        getContribution emptyMockState.contributions pledgeFive.fromAddress.toLower +
          pledgeFive.amountWei ∧
      st2.totalRaisedWei = emptyMockState.totalRaisedWei + pledgeFive.amountWei) :=
  ⟨(pledge_checks_and_deltas 0 pledgeBelowMin emptyMockState).1 (Or.inl (by decide)),
    (pledge_checks_and_deltas 0 pledgeFive emptyMockState).2 (by decide) (by decide)⟩
